import Mathlib

/-!
Verification of the LoadTest scenario scheduling and expectation evaluation
engine.  The Python sources under `src/LoadTest/src` are shallowly embedded
here: float values are modelled by `ℚ`, Python dicts by association lists or
name-indexed lookup functions, and a raw metric value that may fail to parse
as a number by `Option ℚ`.
-/

/-- Truncation toward zero, the behaviour of Python's `int()` applied to a
float: floor for nonnegative arguments, ceiling for negative ones. -/
def intTrunc (q : ℚ) : ℤ := if 0 ≤ q then ⌊q⌋ else ⌈q⌉

/-- Source: `src/utils/aggregator.py`, `calculate_percentile`.  Empty input
returns 0.0; otherwise sort ascending, take `index = (n - 1) * percentile`,
`lower = int(index)`, `upper = lower + 1`; if `upper >= n` return the last
element, else linearly interpolate between positions `lower` and `upper`
with weight `index - lower`. -/
def calculate_percentile (values : List ℚ) (percentile : ℚ) : ℚ :=
  if values = [] then 0
  else
    let sorted_values := List.insertionSort (· ≤ ·) values
    let index : ℚ := ((sorted_values.length - 1 : ℕ) : ℚ) * percentile
    let lower : ℤ := intTrunc index
    let upper : ℤ := lower + 1
    if (sorted_values.length : ℤ) ≤ upper then sorted_values.getLastD 0
    else
      let weight : ℚ := index - (lower : ℚ)
      sorted_values.getD lower.toNat 0 * (1 - weight) +
        sorted_values.getD upper.toNat 0 * weight

/-- Spec-side definition, following the words of the specification only:
sort the values ascending, form the fractional index `idx = f * (n - 1)`,
and linearly interpolate between the floor and ceiling elements at that
index, the weight being the fractional part of the index. -/
def percentile_interp_spec (values : List ℚ) (f : ℚ) : ℚ :=
  let s := List.insertionSort (· ≤ ·) values
  let idx : ℚ := f * ((s.length - 1 : ℕ) : ℚ)
  let w : ℚ := idx - ((⌊idx⌋ : ℤ) : ℚ)
  s.getD (⌊idx⌋).toNat 0 * (1 - w) + s.getD (⌈idx⌉).toNat 0 * w

/-- Source: `src/utils/unit_converter.py`, `SPEED_CONVERSIONS`: multiplier to
the canonical unit Mbps, keyed by the exact spellings of the Python dict. -/
def SPEED_CONVERSIONS : List (String × ℚ) :=
  [("bps", 1 / 1000000), ("kbps", 1 / 1000), ("mbps", 1), ("gbps", 1000),
   ("Bps", 8 / 1000000), ("KBps", 8 / 1000), ("MBps", 8), ("GBps", 8000)]

/-- Source: `src/utils/unit_converter.py`, `TIME_CONVERSIONS`: multiplier to
the canonical unit ms. -/
def TIME_CONVERSIONS : List (String × ℚ) :=
  [("ns", 1 / 1000000), ("us", 1 / 1000), ("ms", 1), ("s", 1000),
   ("sec", 1000), ("seconds", 1000), ("min", 60000), ("minutes", 60000)]

/-- Source: `src/utils/unit_converter.py`, `COUNT_CONVERSIONS`. -/
def COUNT_CONVERSIONS : List (String × ℚ) :=
  [("count", 1), ("", 1)]

/-- Source: `src/utils/unit_converter.py`, `METRIC_CATEGORIES`. -/
def METRIC_CATEGORIES : List (String × String) :=
  [("download_speed", "speed"), ("upload_speed", "speed"),
   ("latency", "time"), ("jitter", "time"), ("page_load_time", "time"),
   ("ttfb", "time"), ("dom_content_loaded", "time"),
   ("resource_count", "count"), ("redirect_count", "count"),
   ("http_response_code", "count")]

/-- Source: `src/utils/unit_converter.py`, `get_conversion_table`: pick the
category's table, defaulting to the count table. -/
def get_conversion_table (category : String) : List (String × ℚ) :=
  (([("speed", SPEED_CONVERSIONS), ("time", TIME_CONVERSIONS),
     ("count", COUNT_CONVERSIONS)] : List (String × List (String × ℚ))).lookup
    category).getD COUNT_CONVERSIONS

/-- Source: the first two lines shared by `convert_to_standard` and
`convert_from_standard`: look the metric up in `METRIC_CATEGORIES`
(defaulting to `"count"`) and fetch that category's table. -/
def conversionTable (metric_name : String) : List (String × ℚ) :=
  get_conversion_table ((METRIC_CATEGORIES.lookup metric_name).getD "count")

/-- Embedding of Python's `str.lower()` on the ASCII strings involved here:
lowercase every character. -/
def strLower (s : String) : String := ⟨s.data.map Char.toLower⟩

/-- Source: `src/utils/unit_converter.py`, `convert_to_standard`: lowercase
the unit, multiply by the table's multiplier when the lowered spelling is a
key, otherwise return the value unchanged. -/
def convert_to_standard (value : ℚ) (unit : String) (metric_name : String) : ℚ :=
  match (conversionTable metric_name).lookup (strLower unit) with
  | some multiplier => value * multiplier
  | none => value

/-- Source: `src/utils/unit_converter.py`, `convert_from_standard`: lowercase
the target unit, divide by the multiplier when found and nonzero, otherwise
return the value unchanged. -/
def convert_from_standard (value : ℚ) (target_unit : String) (metric_name : String) : ℚ :=
  match (conversionTable metric_name).lookup (strLower target_unit) with
  | some multiplier => if multiplier ≠ 0 then value / multiplier else value
  | none => value

/-- Source: `src/utils/unit_converter.py`, `normalize_for_comparison`: the
measured value is passed through unchanged, the expected value is converted
to the canonical unit. -/
def normalize_for_comparison (measured_value expected_value : ℚ)
    (expected_unit metric_name : String) : ℚ × ℚ :=
  (measured_value, convert_to_standard expected_value expected_unit metric_name)

/-- Raw metric sample as stored for one run or scenario: a metric name and
the result of Python's `float(...)` parse of the stored value, `none` when
the parse raises `ValueError`/`TypeError`. -/
structure RawSample where
  metric_name : String
  metric_value : Option ℚ
deriving DecidableEq

/-- Embedding of the grouping loop of `aggregate_metrics_for_run` and
`aggregate_metrics_for_scenario` restricted to one metric name: the parsed
values of the samples bearing that name, in order; samples whose value fails
to parse are skipped by the `try`/`except` and contribute nothing. -/
def metricValuesFor (samples : List RawSample) (name : String) : List ℚ :=
  samples.filterMap fun s => if s.metric_name = name then s.metric_value else none

/-- Source: `src/utils/aggregator.py`, `aggregate_metrics_for_run`, read at
one metric name: `none` when the name has no successfully parsed samples
(the dict has no such key), otherwise the arithmetic mean
(`statistics.mean`). -/
def aggregate_metrics_for_run (samples : List RawSample) (name : String) : Option ℚ :=
  let vs := metricValuesFor samples name
  if vs = [] then none else some (vs.sum / (vs.length : ℚ))

/-- Statistics record built per metric by `aggregate_metrics_for_scenario`. -/
structure ScenarioStats where
  sample_count : ℕ
  avg : ℚ
  min : ℚ
  max : ℚ
  p50 : ℚ
  p99 : ℚ
  stddev : ℚ

/-- Source: the expression `statistics.stdev(values)` squares out to the
sample variance `Σ (x - mean)² / (n - 1)`; `statistics.stdev` itself is its
square root. -/
def sampleVariance (vs : List ℚ) : ℚ :=
  ((vs.map fun x => (x - vs.sum / (vs.length : ℚ)) ^ 2).sum) / ((vs.length : ℚ) - 1)

/-- Source: `src/utils/aggregator.py`, `aggregate_metrics_for_scenario`, read
at one metric name.  The square root inside `statistics.stdev` is the only
non-rational operation of the module and no claim depends on its value, so
it is abstracted as an explicit parameter `sqrtQ`; the guard
`if len(values) > 1 else 0.0` of the source is kept exactly. -/
def aggregate_metrics_for_scenario (sqrtQ : ℚ → ℚ) (samples : List RawSample)
    (name : String) : Option ScenarioStats :=
  let vs := metricValuesFor samples name
  if vs = [] then none
  else some
    { sample_count := vs.length
      avg := vs.sum / (vs.length : ℚ)
      min := (vs.min?).getD 0
      max := (vs.max?).getD 0
      p50 := calculate_percentile vs (1 / 2)
      p99 := calculate_percentile vs (99 / 100)
      stddev := if 1 < vs.length then sqrtQ (sampleVariance vs) else 0 }

/-- Lookup into the per-metric statistics dict literal built by
`aggregate_metrics_for_scenario`; the dict has exactly the seven keys below,
`Python dict.get` returns `None` for any other key. -/
def statsLookup (st : ScenarioStats) (key : String) : Option ℚ :=
  if key = "sample_count" then some (st.sample_count : ℚ)
  else if key = "avg" then some st.avg
  else if key = "min" then some st.min
  else if key = "max" then some st.max
  else if key = "p50" then some st.p50
  else if key = "p99" then some st.p99
  else if key = "stddev" then some st.stddev
  else none

/-- Source: `src/utils/aggregator.py`, `get_aggregated_value`: 0.0 when the
metric is absent from the scenario aggregation, otherwise
`metric_stats.get(aggregation, metric_stats.get("avg", 0.0))`. -/
def get_aggregated_value (sqrtQ : ℚ → ℚ) (samples : List RawSample)
    (metric_name aggregation : String) : ℚ :=
  match aggregate_metrics_for_scenario sqrtQ samples metric_name with
  | none => 0
  | some st => (statsLookup st aggregation).getD ((statsLookup st "avg").getD 0)

/-- Source: `src/scheduler.py`, `ScenarioScheduler._compare_values`: a dict
of the five comparisons, read with `.get(operator, False)`; `"PASS"` when
the selected comparison holds, `"FAIL"` otherwise. -/
def compare_values (measured : ℚ) (operator : String) (expected : ℚ) : String :=
  let comparisons : List (String × Bool) :=
    [("lte", decide (measured ≤ expected)),
     ("lt", decide (measured < expected)),
     ("gte", decide (measured ≥ expected)),
     ("gt", decide (measured > expected)),
     ("eq", decide (measured = expected))]
  if (comparisons.lookup operator).getD false then "PASS" else "FAIL"

/-- Expectation record as read from the scenario configuration. -/
structure Expectation where
  metric : String
  operator : String
  value : ℚ
  unit : String

/-- Source: `src/scheduler.py`, `ScenarioScheduler._evaluate_expectations`,
body of the loop for one expectation at `per_iteration` scope, returning the
status written to the results log: the measured value is the run average of
the expectation's metric (`metrics.get(metric_name, 0)`), units are
normalized, and the operator comparison produces the verdict. -/
def evaluate_expectation_per_iteration (samples : List RawSample) (e : Expectation) : String :=
  let measured := (aggregate_metrics_for_run samples e.metric).getD 0
  let p := normalize_for_comparison measured e.value e.unit e.metric
  compare_values p.1 e.operator p.2

/-- Job record as seen through `apscheduler`: the only field the scheduler
code reads is `next_run_time`, which is `None` once a one-shot job has run. -/
structure JobRec where
  next_run_time : Option ℚ

/-- State held by `ScenarioScheduler`: the `scenario_end_times` and
`scenario_jobs` instance dicts, and the `get_job` view of the underlying
`BackgroundScheduler` job store. -/
structure SchedulerState where
  scenario_end_times : String → Option ℚ
  scenario_jobs : String → Option String
  get_job : String → Option JobRec

/-- Source: `src/scheduler.py`, `ScenarioScheduler.is_scenario_complete`.
An id with no recorded end time is treated as a one-time job: a truthy
(non-empty) job id is looked up in the job store and the job counts as done
when it is gone or has no next run time; a falsy or missing job id yields
`True`.  An id with an end time is complete once `now >= end`. -/
def is_scenario_complete (st : SchedulerState) (now : ℚ) (scenario_id : String) : Bool :=
  match st.scenario_end_times scenario_id with
  | some end_time => decide (end_time ≤ now)
  | none =>
    match st.scenario_jobs scenario_id with
    | some job_id =>
      if job_id = "" then true
      else
        match st.get_job job_id with
        | none => true
        | some job => decide (job.next_run_time = none)
    | none => true

/-- Source: `src/scheduler.py`, `schedule_scenario`, recurring branch:
`end_time = start_dt + timedelta(hours=duration_hours)`.  Time is measured
in minutes, so the end time is `start + 60 * duration_hours`. -/
def recurringEndTime (start_dt duration_hours : ℚ) : ℚ :=
  start_dt + 60 * duration_hours

/-- Modelled from the spec: the firing times of the recurring trigger are
produced by `apscheduler`'s `IntervalTrigger`, which is external to `src/`;
the spec states that the trigger fires every `interval` beginning at
`start`, with no firing permitted at or after `end`. -/
def recurringFiresAt (start interval end_time t : ℚ) : Prop :=
  (∃ k : ℕ, t = start + (k : ℚ) * interval) ∧ t < end_time

/-- Claim C4: for every measured value m, expected value e, and operator op,
the comparison verdict is PASS exactly when op is lte and m ≤ e, lt and
m < e, gte and m ≥ e, gt and m > e, or eq and m = e; for every operator
outside these five, the verdict is FAIL. -/
theorem compare_values_semantics (measured expected : ℚ) (op : String) :
    (compare_values measured op expected = "PASS" ↔
      ((op = "lte" ∧ measured ≤ expected) ∨ (op = "lt" ∧ measured < expected) ∨
       (op = "gte" ∧ expected ≤ measured) ∨ (op = "gt" ∧ expected < measured) ∨
       (op = "eq" ∧ measured = expected)))
    ∧ (op ∉ (["lte", "lt", "gte", "gt", "eq"] : List String) →
        compare_values measured op expected = "FAIL") := by
  have hPF : ("PASS" : String) ≠ "FAIL" := by decide
  unfold compare_values
  by_cases h1 : op = "lte"
  · subst h1
    by_cases hc : measured ≤ expected <;> simp [List.lookup, hc]
  by_cases h2 : op = "lt"
  · subst h2
    by_cases hc : measured < expected <;> simp [List.lookup, hc]
  by_cases h3 : op = "gte"
  · subst h3
    by_cases hc : expected ≤ measured <;> simp [List.lookup, hc, GE.ge]
  by_cases h4 : op = "gt"
  · subst h4
    by_cases hc : expected < measured <;> simp [List.lookup, hc, GT.gt]
  by_cases h5 : op = "eq"
  · subst h5
    by_cases hc : measured = expected <;> simp [List.lookup, hc]
  have b1 : (op == "lte") = false := beq_eq_false_iff_ne.mpr h1
  have b2 : (op == "lt") = false := beq_eq_false_iff_ne.mpr h2
  have b3 : (op == "gte") = false := beq_eq_false_iff_ne.mpr h3
  have b4 : (op == "gt") = false := beq_eq_false_iff_ne.mpr h4
  have b5 : (op == "eq") = false := beq_eq_false_iff_ne.mpr h5
  simp [List.lookup, b1, b2, b3, b4, b5, h1, h2, h3, h4, h5]

/-- Witness for C4: the unrecognized operator "approx" yields FAIL. -/
theorem compare_values_semantics_witness :
    compare_values 0 "approx" 0 = "FAIL" :=
  (compare_values_semantics 0 0 "approx").2 (by decide)

/-- Claim C10: a scenario id that was never scheduled (no recorded end time
and no registered job) is reported complete by `is_scenario_complete`. -/
theorem never_scheduled_is_complete (st : SchedulerState) (now : ℚ) (sid : String)
    (h_end : st.scenario_end_times sid = none)
    (h_job : st.scenario_jobs sid = none) :
    is_scenario_complete st now sid = true := by
  unfold is_scenario_complete
  rw [h_end, h_job]

/-- Witness for C10: the empty scheduler state reports any id complete. -/
theorem never_scheduled_is_complete_witness :
    is_scenario_complete ⟨fun _ => none, fun _ => none, fun _ => none⟩ 0 "s1" = true :=
  never_scheduled_is_complete ⟨fun _ => none, fun _ => none, fun _ => none⟩ 0 "s1" rfl rfl

/-- Claim C2 (code bug): the speed table lists the spelling `MBps` (bytes
per second) with multiplier 8, but `convert_to_standard` lowercases the unit
before the lookup, so a `MBps` threshold matches the lowercase key `mbps`
and is multiplied by 1, not by 8; the byte-per-second rows of the table are
unreachable. -/
theorem convert_to_standard_MBps_divergence :
    SPEED_CONVERSIONS.lookup "MBps" = some 8 ∧
    convert_to_standard 5 "MBps" "download_speed" = 5 := by
  constructor
  · rfl
  · have h : convert_to_standard 5 "MBps" "download_speed" = 5 * 1 := rfl
    rw [h]
    norm_num

/-- Claim C7: a metric whose parsed sample list has at most one element
never receives a nonzero standard deviation, and with exactly one element
the statistics row exists with stddev 0; the computation is total (the
`statistics.stdev` call is guarded by `len(values) > 1`). -/
theorem stddev_single_sample (sqrtQ : ℚ → ℚ) (samples : List RawSample) (name : String) :
    ((metricValuesFor samples name).length ≤ 1 →
      ∀ st, aggregate_metrics_for_scenario sqrtQ samples name = some st → st.stddev = 0) ∧
    ((metricValuesFor samples name).length = 1 →
      ∃ st, aggregate_metrics_for_scenario sqrtQ samples name = some st ∧ st.stddev = 0) := by
  constructor
  · intro hle st hst
    unfold aggregate_metrics_for_scenario at hst
    by_cases hvs : metricValuesFor samples name = []
    · simp [hvs] at hst
    · simp only [hvs, if_false, if_neg hvs, Option.some.injEq] at hst
      have hnot : ¬ 1 < (metricValuesFor samples name).length := not_lt.mpr hle
      rw [← hst]
      simp [hnot]
  · intro h1
    have hvs : metricValuesFor samples name ≠ [] := by
      intro h
      rw [h] at h1
      simp at h1
    unfold aggregate_metrics_for_scenario
    rw [if_neg hvs]
    refine ⟨_, rfl, ?_⟩
    have hnot : ¬ 1 < (metricValuesFor samples name).length := by omega
    simp [hnot]

/-- Witness for C7: one parsed sample for metric `m` yields a statistics row
with stddev 0. -/
theorem stddev_single_sample_witness :
    ∃ st, aggregate_metrics_for_scenario (fun q => q) [⟨"m", some 7⟩] "m" = some st ∧
      st.stddev = 0 :=
  (stddev_single_sample (fun q => q) [⟨"m", some 7⟩] "m").2 (by decide)

/-- Claim C8: an expectation evaluated at per_iteration scope for a metric
with no recorded sample for the run uses measured value 0 (the metric is
absent from the run averages), and the verdict is FAIL whenever the
operator is gte or gt and the normalized expected threshold is positive. -/
theorem missing_metric_measured_zero_fails (samples : List RawSample) (e : Expectation)
    (h_no : ∀ s ∈ samples, s.metric_name ≠ e.metric) :
    aggregate_metrics_for_run samples e.metric = none ∧
    ((e.operator = "gte" ∨ e.operator = "gt") →
      0 < convert_to_standard e.value e.unit e.metric →
      evaluate_expectation_per_iteration samples e = "FAIL") := by
  have hvs : metricValuesFor samples e.metric = [] := by
    apply List.filterMap_eq_nil_iff.mpr
    intro s hs
    rw [if_neg (h_no s hs)]
  have hagg : aggregate_metrics_for_run samples e.metric = none := by
    unfold aggregate_metrics_for_run
    rw [hvs]
    rfl
  refine ⟨hagg, ?_⟩
  intro hop hpos
  unfold evaluate_expectation_per_iteration
  rw [hagg]
  unfold normalize_for_comparison compare_values
  have hle : ¬ convert_to_standard e.value e.unit e.metric ≤ (0 : ℚ) := not_le.mpr hpos
  have hlt : ¬ convert_to_standard e.value e.unit e.metric < (0 : ℚ) := not_lt.mpr hpos.le
  rcases hop with h | h <;>
    simp [h, List.lookup, ge_iff_le, gt_iff_lt, hle, hlt]

/-- Witness for C8: an expectation on `latency` with operator gte and a 10 ms
threshold fails for a run whose only sample is for a different metric. -/
theorem missing_metric_measured_zero_fails_witness :
    evaluate_expectation_per_iteration [⟨"other", some 5⟩] ⟨"latency", "gte", 10, "ms"⟩ =
      "FAIL" :=
  (missing_metric_measured_zero_fails [⟨"other", some 5⟩] ⟨"latency", "gte", 10, "ms"⟩
      (by decide)).2 (Or.inl rfl)
    (by
      have h : convert_to_standard 10 "ms" "latency" = 10 * 1 := rfl
      rw [h]
      norm_num)

/-- Helper for C9: removing the samples whose raw value fails to parse does
not change the collected value list of any metric. -/
theorem metricValuesFor_filter_isSome (samples : List RawSample) (name : String) :
    metricValuesFor (samples.filter fun s => s.metric_value.isSome) name =
      metricValuesFor samples name := by
  induction samples with
  | nil => rfl
  | cons s t ih =>
    cases hval : s.metric_value with
    | none =>
      by_cases hname : s.metric_name = name <;>
        simp [metricValuesFor, List.filter_cons, List.filterMap_cons, hval, hname] <;>
        simpa [metricValuesFor] using ih
    | some v =>
      by_cases hname : s.metric_name = name <;>
        simp [metricValuesFor, List.filter_cons, List.filterMap_cons, hval, hname] <;>
        simpa [metricValuesFor] using ih

/-- Claim C9: the run-average aggregation drops unparseable samples (its
result is unchanged when they are removed), a metric all of whose samples
fail to parse is absent from the result rather than zero, and a present
metric's value is the arithmetic mean of the remaining parsed samples. -/
theorem run_average_drops_unparseable (samples : List RawSample) (name : String) :
    aggregate_metrics_for_run samples name =
      aggregate_metrics_for_run (samples.filter fun s => s.metric_value.isSome) name ∧
    (aggregate_metrics_for_run samples name = none ↔
      ∀ s ∈ samples, s.metric_name = name → s.metric_value = none) ∧
    (∀ q, aggregate_metrics_for_run samples name = some q →
      q = (metricValuesFor samples name).sum / ((metricValuesFor samples name).length : ℚ)) := by
  refine ⟨?_, ?_, ?_⟩
  · unfold aggregate_metrics_for_run
    rw [metricValuesFor_filter_isSome]
  · unfold aggregate_metrics_for_run
    by_cases hvs : metricValuesFor samples name = []
    · rw [if_pos hvs]
      constructor
      · intro _ s hs hname
        have hmem := List.filterMap_eq_nil_iff.mp hvs s hs
        rw [if_pos hname] at hmem
        exact hmem
      · intro _
        rfl
    · rw [if_neg hvs]
      constructor
      · intro h
        exact (Option.some_ne_none _ h).elim
      · intro hall
        exfalso
        apply hvs
        apply List.filterMap_eq_nil_iff.mpr
        intro s hs
        by_cases hname : s.metric_name = name
        · rw [if_pos hname]
          exact hall s hs hname
        · rw [if_neg hname]
  · intro q hq
    unfold aggregate_metrics_for_run at hq
    by_cases hvs : metricValuesFor samples name = []
    · simp [hvs] at hq
    · rw [if_neg hvs] at hq
      exact (Option.some.injEq _ _ ▸ hq).symm

/-- Witness for C9: for a run with samples 4, unparseable, 6 on metric `m`,
the aggregate is the mean 5 of the two parsed samples. -/
theorem run_average_drops_unparseable_witness :
    (5 : ℚ) = (metricValuesFor [⟨"m", some 4⟩, ⟨"m", none⟩, ⟨"m", some 6⟩] "m").sum /
      ((metricValuesFor [⟨"m", some 4⟩, ⟨"m", none⟩, ⟨"m", some 6⟩] "m").length : ℚ) :=
  (run_average_drops_unparseable [⟨"m", some 4⟩, ⟨"m", none⟩, ⟨"m", some 6⟩] "m").2.2 5
    (by norm_num [aggregate_metrics_for_run, metricValuesFor, List.filterMap_cons,
      List.cons_ne_nil])

/-- Counterexample to C5 as stated: `sample_count` is not one of the six
aggregate kinds, yet `get_aggregated_value` returns the stored sample count
(2) for it, not the metric's avg (20). -/
theorem get_aggregated_value_sample_count_counterexample :
    ("sample_count" ∉ (["avg", "min", "max", "p50", "p99", "stddev"] : List String)) ∧
    get_aggregated_value (fun q => q) [⟨"m", some 10⟩, ⟨"m", some 30⟩] "m" "sample_count" = 2 ∧
    get_aggregated_value (fun q => q) [⟨"m", some 10⟩, ⟨"m", some 30⟩] "m" "avg" = 20 := by
  refine ⟨by decide, ?_, ?_⟩ <;>
    norm_num [get_aggregated_value, aggregate_metrics_for_scenario, metricValuesFor,
      List.filterMap_cons, List.cons_ne_nil, statsLookup,
      (by decide : ("avg" : String) ≠ "sample_count")]

/-- Claim C5 (amended): `get_aggregated_value` returns 0 when the metric has
no parsed samples, and falls back to the metric's avg when the requested
kind is not one of the seven stored keys (sample_count, avg, min, max, p50,
p99, stddev); the stored key `sample_count` returns the sample count, not
the avg. -/
theorem get_aggregated_value_fallback (sqrtQ : ℚ → ℚ) (samples : List RawSample)
    (metric_name kind : String) :
    (metricValuesFor samples metric_name = [] →
      get_aggregated_value sqrtQ samples metric_name kind = 0) ∧
    (kind ∉ (["sample_count", "avg", "min", "max", "p50", "p99", "stddev"] : List String) →
      get_aggregated_value sqrtQ samples metric_name kind =
        get_aggregated_value sqrtQ samples metric_name "avg") := by
  constructor
  · intro hvs
    simp [get_aggregated_value, aggregate_metrics_for_scenario, hvs]
  · intro hk
    simp only [List.mem_cons, List.not_mem_nil, or_false, not_or] at hk
    obtain ⟨k1, k2, k3, k4, k5, k6, k7⟩ := hk
    unfold get_aggregated_value
    cases hagg : aggregate_metrics_for_scenario sqrtQ samples metric_name with
    | none => rfl
    | some st => simp [statsLookup, k1, k2, k3, k4, k5, k6, k7]

/-- Witness for C5: the unknown kind `median` falls back to avg. -/
theorem get_aggregated_value_fallback_witness :
    get_aggregated_value (fun q => q) [⟨"m", some 10⟩, ⟨"m", some 30⟩] "m" "median" =
      get_aggregated_value (fun q => q) [⟨"m", some 10⟩, ⟨"m", some 30⟩] "m" "avg" :=
  (get_aggregated_value_fallback (fun q => q) [⟨"m", some 10⟩, ⟨"m", some 30⟩] "m"
    "median").2 (by decide)

/-- Claim C3: for a recurring scenario the trigger fires at start,
start + interval, start + 2·interval, …, and never at or after
end = start + duration; with interval 10 minutes, duration 1 hour and
immediate start (time zero), the firings are exactly t = 0, 10, 20, 30, 40,
50 minutes. -/
theorem recurring_window (start interval d t : ℚ) :
    (∀ k : ℕ, (k : ℚ) * interval < 60 * d →
      recurringFiresAt start interval (recurringEndTime start d) (start + (k : ℚ) * interval)) ∧
    (recurringEndTime start d ≤ t →
      ¬ recurringFiresAt start interval (recurringEndTime start d) t) ∧
    (∀ u : ℚ, recurringFiresAt 0 10 (recurringEndTime 0 1) u ↔
      u ∈ ([0, 10, 20, 30, 40, 50] : List ℚ)) := by
  refine ⟨?_, ?_, ?_⟩
  · intro k hk
    exact ⟨⟨k, rfl⟩, by unfold recurringEndTime; linarith⟩
  · rintro hend ⟨⟨k, rfl⟩, hlt⟩
    exact absurd hlt (not_lt.mpr hend)
  · intro u
    constructor
    · rintro ⟨⟨k, rfl⟩, hlt⟩
      unfold recurringEndTime at hlt
      have hk : (k : ℚ) < 6 := by linarith
      have hk6 : k < 6 := by exact_mod_cast hk
      interval_cases k <;> norm_num
    · intro hu
      simp only [List.mem_cons, List.not_mem_nil, or_false] at hu
      unfold recurringEndTime
      rcases hu with h | h | h | h | h | h <;> subst h
      · exact ⟨⟨0, by norm_num⟩, by norm_num⟩
      · exact ⟨⟨1, by norm_num⟩, by norm_num⟩
      · exact ⟨⟨2, by norm_num⟩, by norm_num⟩
      · exact ⟨⟨3, by norm_num⟩, by norm_num⟩
      · exact ⟨⟨4, by norm_num⟩, by norm_num⟩
      · exact ⟨⟨5, by norm_num⟩, by norm_num⟩

/-- Witness for C3: with immediate start, a 10 minute interval and a 1 hour
window, a firing occurs at t = 20 minutes. -/
theorem recurring_window_witness :
    recurringFiresAt 0 10 (recurringEndTime 0 1) 20 :=
  ((recurring_window 0 10 1 0).2.2 20).mpr (by norm_num)

/-- Helper for C6: `get_conversion_table` always returns one of the three
fixed tables, whatever category string it is given. -/
theorem get_conversion_table_mem (c : String) :
    get_conversion_table c = SPEED_CONVERSIONS ∨
    get_conversion_table c = TIME_CONVERSIONS ∨
    get_conversion_table c = COUNT_CONVERSIONS := by
  unfold get_conversion_table
  by_cases h1 : c = "speed"
  · subst h1
    left
    rfl
  by_cases h2 : c = "time"
  · subst h2
    right
    left
    rfl
  by_cases h3 : c = "count"
  · subst h3
    right
    right
    rfl
  · right
    right
    have b1 : (c == "speed") = false := beq_eq_false_iff_ne.mpr h1
    have b2 : (c == "time") = false := beq_eq_false_iff_ne.mpr h2
    have b3 : (c == "count") = false := beq_eq_false_iff_ne.mpr h3
    simp [List.lookup, b1, b2, b3]

/-- Helper for C6: every key of each fixed conversion table, lowercased,
hits some entry of that table, and the multiplier found is nonzero. -/
theorem conversion_multiplier_exists (t : List (String × ℚ))
    (ht : t = SPEED_CONVERSIONS ∨ t = TIME_CONVERSIONS ∨ t = COUNT_CONVERSIONS)
    (u : String) (hu : u ∈ t.map Prod.fst) :
    ∃ m : ℚ, t.lookup (strLower u) = some m ∧ m ≠ 0 := by
  rcases ht with h | h | h <;> subst h
  · fin_cases hu
    · exact ⟨1 / 1000000, rfl, by norm_num⟩
    · exact ⟨1 / 1000, rfl, by norm_num⟩
    · exact ⟨1, rfl, by norm_num⟩
    · exact ⟨1000, rfl, by norm_num⟩
    · exact ⟨1 / 1000000, rfl, by norm_num⟩
    · exact ⟨1 / 1000, rfl, by norm_num⟩
    · exact ⟨1, rfl, by norm_num⟩
    · exact ⟨1000, rfl, by norm_num⟩
  · fin_cases hu
    · exact ⟨1 / 1000000, rfl, by norm_num⟩
    · exact ⟨1 / 1000, rfl, by norm_num⟩
    · exact ⟨1, rfl, by norm_num⟩
    · exact ⟨1000, rfl, by norm_num⟩
    · exact ⟨1000, rfl, by norm_num⟩
    · exact ⟨1000, rfl, by norm_num⟩
    · exact ⟨60000, rfl, by norm_num⟩
    · exact ⟨60000, rfl, by norm_num⟩
  · fin_cases hu
    · exact ⟨1, rfl, by norm_num⟩
    · exact ⟨1, rfl, by norm_num⟩

/-- Claim C6: for every recognized unit spelling in a metric's category
table, converting a value from the canonical unit to that unit and back to
the canonical unit is the identity. -/
theorem unit_roundtrip_identity (metric_name u : String) (x : ℚ)
    (hu : u ∈ (conversionTable metric_name).map Prod.fst) :
    convert_to_standard (convert_from_standard x u metric_name) u metric_name = x := by
  have ht : conversionTable metric_name = SPEED_CONVERSIONS ∨
      conversionTable metric_name = TIME_CONVERSIONS ∨
      conversionTable metric_name = COUNT_CONVERSIONS :=
    get_conversion_table_mem _
  obtain ⟨m, hm, hm0⟩ := conversion_multiplier_exists _ ht u hu
  simp only [convert_to_standard, convert_from_standard, hm]
  rw [if_pos hm0]
  exact div_mul_cancel₀ x hm0

/-- Witness for C6: the round trip through the recognized speed spelling
`MBps` is the identity on 7. -/
theorem unit_roundtrip_identity_witness :
    convert_to_standard (convert_from_standard 7 "MBps" "download_speed") "MBps"
      "download_speed" = 7 :=
  unit_roundtrip_identity "download_speed" "MBps" 7 (by decide)

/-- Helper for C1: the last element of a nonempty list is the element at
position length - 1. -/
theorem getLastD_eq_getD (l : List ℚ) (h : l ≠ []) :
    l.getLastD 0 = l.getD (l.length - 1) 0 := by
  induction l with
  | nil => exact absurd rfl h
  | cons a t ih =>
    cases t with
    | nil => rfl
    | cons b t2 =>
      have hne : b :: t2 ≠ [] := List.cons_ne_nil b t2
      have hstep : (a :: b :: t2).getLastD 0 = (b :: t2).getLastD 0 := by
        simp [List.getLastD]
      rw [hstep, ih hne,
        show (a :: b :: t2).length - 1 = ((b :: t2).length - 1) + 1 from by
          simp [List.length_cons],
        List.getD_cons_succ]

/-- Claim C1: for every non-empty value list and fraction f in [0,1], the
percentile aggregate equals the linear interpolation at fractional index
f · (n-1) of the ascending-sorted values, with weight the fractional part
of the index; in particular for [10,20,30,40], p50 = 25 and
p99 = 39.7 = 397/10. -/
theorem percentile_matches_linear_interpolation :
    (∀ (values : List ℚ) (f : ℚ), values ≠ [] → 0 ≤ f → f ≤ 1 →
      calculate_percentile values f = percentile_interp_spec values f) ∧
    calculate_percentile [10, 20, 30, 40] (1 / 2) = 25 ∧
    calculate_percentile [10, 20, 30, 40] (99 / 100) = 397 / 10 := by
  refine ⟨?_, ?_, ?_⟩
  · intro values f hne h0 h1
    simp only [calculate_percentile, percentile_interp_spec]
    rw [if_neg hne]
    set s := List.insertionSort (· ≤ ·) values with hs
    have hsne : s ≠ [] := by
      intro hnil
      apply hne
      have hperm := List.perm_insertionSort (fun x1 x2 => x1 ≤ x2) values
      rw [hs] at hnil
      rw [hnil] at hperm
      exact hperm.symm.eq_nil
    have hlen1 : 1 ≤ s.length := List.length_pos.mpr hsne
    have hcast : ((s.length - 1 : ℕ) : ℚ) = (s.length : ℚ) - 1 := by
      rw [Nat.cast_sub hlen1]
      norm_num
    rw [mul_comm f ((s.length - 1 : ℕ) : ℚ)]
    have hidx0 : 0 ≤ ((s.length - 1 : ℕ) : ℚ) * f := mul_nonneg (Nat.cast_nonneg _) h0
    have hidxle : ((s.length - 1 : ℕ) : ℚ) * f ≤ ((s.length - 1 : ℕ) : ℚ) := by
      calc ((s.length - 1 : ℕ) : ℚ) * f ≤ ((s.length - 1 : ℕ) : ℚ) * 1 :=
            mul_le_mul_of_nonneg_left h1 (Nat.cast_nonneg _)
        _ = ((s.length - 1 : ℕ) : ℚ) := mul_one _
    set idx : ℚ := ((s.length - 1 : ℕ) : ℚ) * f with hidxdef
    have htrunc : intTrunc idx = ⌊idx⌋ := by simp [intTrunc, hidx0]
    rw [htrunc]
    have hfl0 : 0 ≤ ⌊idx⌋ := Int.floor_nonneg.mpr hidx0
    by_cases hcase : (s.length : ℤ) ≤ ⌊idx⌋ + 1
    · rw [if_pos hcase]
      have hflub : ⌊idx⌋ ≤ (s.length : ℤ) - 1 := by
        have hmono : ⌊idx⌋ ≤ ⌊((s.length - 1 : ℕ) : ℚ)⌋ := Int.floor_le_floor hidxle
        rw [Int.floor_natCast] at hmono
        omega
      have hfl : ⌊idx⌋ = (s.length : ℤ) - 1 := by omega
      have hidxeq : idx = (((s.length : ℤ) - 1 : ℤ) : ℚ) := by
        apply le_antisymm
        · rw [hidxdef]
          calc ((s.length - 1 : ℕ) : ℚ) * f ≤ ((s.length - 1 : ℕ) : ℚ) := hidxle
            _ = (((s.length : ℤ) - 1 : ℤ) : ℚ) := by push_cast [hcast]; ring
        · calc (((s.length : ℤ) - 1 : ℤ) : ℚ) = ((⌊idx⌋ : ℤ) : ℚ) := by rw [hfl]
            _ ≤ idx := Int.floor_le idx
      have hceil : ⌈idx⌉ = ⌊idx⌋ := by
        rw [hidxeq, Int.ceil_intCast, Int.floor_intCast]
      have hw : idx - ((⌊idx⌋ : ℤ) : ℚ) = 0 := by
        rw [hfl, hidxeq]
        push_cast
        ring
      rw [hceil, hw]
      rw [getLastD_eq_getD s hsne]
      have htn : (⌊idx⌋).toNat = s.length - 1 := by omega
      rw [htn]
      ring
    · rw [if_neg hcase]
      by_cases hw : idx - ((⌊idx⌋ : ℤ) : ℚ) = 0
      · rw [hw]
        ring_nf
      · have hflt : ((⌊idx⌋ : ℤ) : ℚ) < idx := by
          rcases lt_or_eq_of_le (Int.floor_le idx) with hlt | heq
          · exact hlt
          · exact absurd (by linarith) hw
        have hceil : ⌈idx⌉ = ⌊idx⌋ + 1 := by
          apply le_antisymm
          · apply Int.ceil_le.mpr
            push_cast
            exact le_of_lt (Int.lt_floor_add_one idx)
          · have hlt : (⌊idx⌋ : ℚ) < (⌈idx⌉ : ℚ) := lt_of_lt_of_le hflt (Int.le_ceil idx)
            have hlt2 : ⌊idx⌋ < ⌈idx⌉ := by exact_mod_cast hlt
            omega
        rw [hceil]
  · norm_num [calculate_percentile, intTrunc, List.insertionSort, List.orderedInsert,
      show Int.toNat 2 = 2 from rfl, show Int.toNat 3 = 3 from rfl, List.cons_ne_nil]
  · norm_num [calculate_percentile, intTrunc, List.insertionSort, List.orderedInsert,
      show Int.toNat 2 = 2 from rfl, show Int.toNat 3 = 3 from rfl, List.cons_ne_nil]

/-- Witness for C1: the source percentile of [10,20,30,40] at fraction 1/2
coincides with the spec-side interpolation. -/
theorem percentile_matches_linear_interpolation_witness :
    calculate_percentile [10, 20, 30, 40] (1 / 2) =
      percentile_interp_spec [10, 20, 30, 40] (1 / 2) :=
  percentile_matches_linear_interpolation.1 [10, 20, 30, 40] (1 / 2)
    (by decide) (by norm_num) (by norm_num)
